import Mathlib

/-!
A shallow embedding in Lean 4 of the `mpd` package of this repository: a
line-oriented MPD (Music Player Daemon) client plus a background status
watcher.  Pure parsing and decoding functions are translated directly from
the Go source; the network-facing operations (`NewClient`, `sendCommand`,
the `Status` method, `WatchStatus`) are embedded as functions of the
environment's observable outcomes (the reply lines the server would send,
whether a dial or read succeeded), so that every control-flow branch of the
Go code is represented.  Go machine integers are modelled as `Int` with the
64-bit clamping that `strconv.ParseInt` performs on range errors, and Go
`float64` parsing is modelled over `ℚ` restricted to the plain decimal
forms that appear on this wire protocol (no hex floats, infinities or NaN,
which the MPD status fields never carry).  Strings on this protocol are
ASCII, for which Lean's `String.trim`/`String.toLower`/char-counted `drop`
agree with Go's `strings.TrimSpace`/`strings.ToLower`/byte slicing.
-/

namespace MPDSpec

/-- Splits a character list at the FIRST occurrence of the two-character
separator `": "`, embedding `strings.SplitN(line, ": ", 2)` as used by
`parseKVP` (part_000 lines 116-117): `some` exactly when the separator
occurs somewhere, carrying the text before the first occurrence and the
text after it. -/
def splitSep : List Char → Option (List Char × List Char)
  | [] => none
  | c :: rest =>
    if c = ':' ∧ rest.head? = some ' '
    then some ([], rest.tail)
    else (splitSep rest).map (fun p => (c :: p.1, p.2))

/-- `strings.SplitN(line, ": ", 2)` on strings restricted to the
`len(parts) == 2` test of `parseKVP`: the key/value pair when the
separator occurs, `none` otherwise. -/
def splitKV (line : String) : Option (String × String) :=
  (splitSep line.toList).map (fun p => (String.mk p.1, String.mk p.2))

/-- One Go map assignment `m[parts[0]] = parts[1]` of `parseKVP` (part_000
line 118), on the lookup-function representation of `map[string]string`:
lines without the separator leave the map unchanged (line 117's
`len(parts) == 2` guard). -/
def kvInsert (m : String → Option String) (line : String) : String → Option String :=
  match splitKV line with
  | some kv => fun k => if k = kv.1 then some kv.2 else m k
  | none => m

/-- The key-value record produced by one reply.  `parseKVP` (part_000
lines 113-122) starts from the empty map and inserts each line in order,
a later insertion of a key overwriting an earlier one exactly as Go map
assignment does. -/
def parseKVP (lines : List String) : String → Option String :=
  lines.foldl kvInsert (fun _ => none)

/-- The values carried by the lines of `lines` whose key is `k`, in order:
the reference description of what `parseKVP` keeps for one key. -/
def valuesFor (lines : List String) (k : String) : List String :=
  ((lines.filterMap splitKV).filter (fun p => p.1 = k)).map Prod.snd

/-- The natural number denoted by a list of decimal digit characters. -/
def digitsToNat (cs : List Char) : Nat :=
  cs.foldl (fun a c => a * 10 + (c.toNat - 48)) 0

/-- Go `strconv.Atoi` (= `strconv.ParseInt(s, 10, 0)` on a 64-bit
platform), as the pair (value, ok) that the Go call returns: an optional
sign followed by at least one decimal digit parses to its value (`ok`),
anything else is a syntax error returning value 0 with `ok = false`, and a
syntactically valid numeral outside the signed 64-bit range is a range
error returning the clamped bound with `ok = false`. -/
def goAtoi (s : String) : Int × Bool :=
  let p : Int × List Char :=
    match s.toList with
    | '-' :: t => (-1, t)
    | '+' :: t => (1, t)
    | cs => (1, cs)
  if p.2 = [] ∨ ¬ p.2.all Char.isDigit then (0, false)
  else
    let v : Int := p.1 * digitsToNat p.2
    if v < -(2 ^ 63) then (-(2 ^ 63), false)
    else if 2 ^ 63 - 1 < v then (2 ^ 63 - 1, false)
    else (v, true)

/-- Go `strconv.ParseFloat(s, 64)` restricted to the plain decimal forms
the MPD status protocol carries (optional sign, digits with an optional
single decimal point, optional `e`/`E` exponent; no hex floats, `Inf`,
`NaN` or digit-separating underscores), with the parsed value kept exact
over `ℚ`: `some` on a well-formed input, `none` on a syntax error. -/
def goParseFloatQ (s : String) : Option ℚ :=
  let p : ℚ × List Char :=
    match s.toList with
    | '-' :: t => (-1, t)
    | '+' :: t => (1, t)
    | cs => (1, cs)
  let mant := p.2.takeWhile (fun c => ¬(c = 'e' ∨ c = 'E'))
  let expPart := p.2.dropWhile (fun c => ¬(c = 'e' ∨ c = 'E'))
  let ip := mant.takeWhile Char.isDigit
  let rest := mant.dropWhile Char.isDigit
  let fp? : Option (List Char) :=
    match rest with
    | [] => some []
    | '.' :: fp => if fp.all Char.isDigit then some fp else none
    | _ => none
  match fp? with
  | none => none
  | some fp =>
    if ip = [] ∧ fp = [] then none
    else
      let mval : ℚ := (digitsToNat ip : ℚ) + (digitsToNat fp : ℚ) / (10 : ℚ) ^ fp.length
      match expPart with
      | [] => some (p.1 * mval)
      | _ :: ex =>
        let e : Int × List Char :=
          match ex with
          | '-' :: t => (-1, t)
          | '+' :: t => (1, t)
          | cs => (1, cs)
        if e.2 = [] ∨ ¬ e.2.all Char.isDigit then none
        else some (p.1 * mval * (10 : ℚ) ^ (e.1 * digitsToNat e.2))

/-- The (value, ok) pair Go's `ParseFloat` returns: value 0 alongside
`ok = false` on a syntax error. -/
def goParseFloat (s : String) : ℚ × Bool :=
  match goParseFloatQ s with
  | some q => (q, true)
  | none => (0, false)

/-- Go's `int(f)` conversion applied at part_000 line 195: truncation
toward zero. -/
def goIntOfFloat (q : ℚ) : Int :=
  if 0 ≤ q then ⌊q⌋ else ⌈q⌉

/-- The `Status` struct (part_000 lines 24-43).  Go `int` is modelled as
`Int` and `float64` as `ℚ` (exact decimal values). -/
@[ext]
structure Status where
  State : String
  Volume : Int
  Repeat : Bool
  Random : Bool
  Single : Bool
  Consume : Bool
  PlaylistLength : Int
  Song : Int
  SongID : Int
  NextSong : Int
  NextSongID : Int
  Duration : Int
  Elapsed : ℚ
  Bitrate : Int
  Error : String
  Artist : String
  Album : String
  Title : String
deriving Repr, DecidableEq

/-- The decoding part of the `Status` method (part_000 lines 158-205): a
`Status` built from the key-value record of one `status` reply.  Each Go
`if v, ok := kv[key]; ok { ... }` block reads one key independently, so
the sequential assignments are rendered field by field; the starting
struct literal at line 158 supplies the defaults `Volume = -1`,
`SongID = -1`, `NextSongID = -1` and Go zero values for the rest.  Note
that the Go code assigns `strconv`'s returned value even when the parse
fails (the error is discarded with `_`), which is why every numeric field
is `(goAtoi v).1` / `(goParseFloat v).1` rather than a parse-or-default. -/
def decodeStatus (kv : String → Option String) : Status where
  State := (kv "state").getD ""
  Volume := match kv "volume" with | some v => (goAtoi v).1 | none => -1
  Repeat := match kv "repeat" with | some v => v == "1" | none => false
  Random := match kv "random" with | some v => v == "1" | none => false
  Single := match kv "single" with | some v => v == "1" | none => false
  Consume := match kv "consume" with | some v => v == "1" | none => false
  PlaylistLength := match kv "playlistlength" with | some v => (goAtoi v).1 | none => 0
  Song := match kv "song" with | some v => (goAtoi v).1 | none => 0
  SongID := match kv "songid" with | some v => (goAtoi v).1 | none => -1
  NextSong := match kv "nextsong" with | some v => (goAtoi v).1 | none => 0
  NextSongID := match kv "nextsongid" with | some v => (goAtoi v).1 | none => -1
  Duration := match kv "duration" with | some v => goIntOfFloat (goParseFloat v).1 | none => 0
  Elapsed := match kv "elapsed" with | some v => (goParseFloat v).1 | none => 0
  Bitrate := match kv "bitrate" with | some v => (goAtoi v).1 | none => 0
  Error := (kv "error").getD ""
  Artist := ""
  Album := ""
  Title := ""

/-- Removing one key from a key-value record: used to state that a field
decodes from its key independently of the rest of the record. -/
def eraseKey (kv : String → Option String) (k : String) : String → Option String :=
  fun k' => if k' = k then none else kv k'

/-- A status record whose only entry is an unparsable `volume`. -/
def kvVolumeBad : String → Option String :=
  fun k => if k = "volume" then some "abc" else none

/-- `p` is a prefix of `s`, character by character. -/
def startsChars : List Char → List Char → Bool
  | [], _ => true
  | _ :: _, [] => false
  | p :: ps, c :: cs => p == c && startsChars ps cs

/-- Go `strings.HasPrefix(s, pre)`.  (Stated over characters; the wire
protocol is ASCII, where characters and bytes coincide.) -/
def goStartsWith (s pre : String) : Bool :=
  startsChars pre.toList s.toList

/-- Go `strings.TrimSpace` on the ASCII whitespace the protocol can
carry: leading and trailing whitespace characters removed. -/
def goTrimSpace (s : String) : String :=
  String.mk (((s.toList.dropWhile Char.isWhitespace).reverse.dropWhile Char.isWhitespace).reverse)

/-- Go `strings.ToLower` on ASCII. -/
def goToLower (s : String) : String :=
  String.mk (s.toList.map Char.toLower)

/-- The failures `sendCommand` (part_000 lines 80-110) can produce, each
carrying what the corresponding `fmt.Errorf` interpolates: `sendFailed`
for a failed command write (line 84), `readFailed` for an I/O failure
while reading the reply (line 91), and `commandFailed` for an `ACK` reply
line (line 103), carrying the whole trimmed line. -/
inductive MPDError
  | sendFailed (command : String)
  | readFailed (command : String)
  | commandFailed (command : String) (line : String)
deriving Repr, DecidableEq

/-- The reply-reading loop of `sendCommand` (part_000 lines 87-107) over
the list of lines the server sends, with the stream ending before a
terminator modelled as the read error of line 90.  Each line is trimmed
(line 94); a line equal to `"OK"` ends the reply successfully with the
lines collected so far (in order: `acc` is kept reversed and reversed
back); a line beginning with `"ACK"` fails with that line; any other line
is collected. -/
def readReply (command : String) : List String → List String → Except MPDError (List String)
  | [], _ => .error (.readFailed command)
  | l :: rest, acc =>
    let line := goTrimSpace l
    if line = "OK" then .ok acc.reverse
    else if goStartsWith line "ACK" then .error (.commandFailed command line)
    else readReply command rest (line :: acc)

/-- `sendCommand` (part_000 lines 80-110) as a function of the
environment: whether the command write succeeded (`writeOk`, line 82) and
the raw reply lines the server then sends. -/
def sendCommand (writeOk : Bool) (command : String) (reply : List String) :
    Except MPDError (List String) :=
  if writeOk then readReply command reply [] else .error (.sendFailed command)

/-- What `NewClient` (part_000 lines 45-69) can observe from its
environment: the TCP dial fails, the greeting read fails, or a greeting
line arrives. -/
inductive GreetOutcome
  | dialFail
  | readFail
  | greeting (line : String)

/-- The connect-time failures of `NewClient`, one per `return nil, ...`
branch (part_000 lines 48, 57, 62). -/
inductive ConnectError
  | dialFailed
  | greetingReadFailed
  | badGreeting (line : String)
deriving Repr, DecidableEq

/-- `NewClient` (part_000 lines 45-69).  The first component is the
result (the connected client, represented by its greeting line, or the
`ConnectError`); the second records whether `NewClient` closed the opened
stream (`conn.Close()` at lines 56 and 61 — after a dial failure there is
no stream to close).  The greeting line is tested untrimmed with
`strings.HasPrefix(line, "OK MPD")` (line 60). -/
def NewClient : GreetOutcome → Except ConnectError String × Bool
  | .dialFail => (.error .dialFailed, false)
  | .readFail => (.error .greetingReadFailed, true)
  | .greeting line =>
    if goStartsWith line "OK MPD" then (.ok line, false)
    else (.error (.badGreeting line), true)

/-- The command-building loop of `List` (part_000 lines 130-132):
`for i := 0; i < len(args); i += 2 { cmd += fmt.Sprintf(" %s \"%s\"", args[i], args[i+1]) }`.
The read `args[i+1]` is out of bounds when `i+1 = len(args)`; Go panics
there, modelled as `none`. -/
def listCmdLoop (args : List String) (i : Nat) (cmd : String) : Option String :=
  if h : i < args.length then
    match args[i+1]? with
    | some b => listCmdLoop args (i + 2) (cmd ++ " " ++ args[i] ++ " \"" ++ b ++ "\"")
    | none => none
  else some cmd
termination_by args.length - i

/-- The full command string `List` sends (part_000 lines 129-132), or
`none` if building it panics. -/
def buildListCmd (tag : String) (args : List String) : Option String :=
  listCmdLoop args 0 ("list " ++ tag)

/-- The value-extraction loop of `List` (part_000 lines 140-147): keep
the lines whose LOWERCASED text starts with `tag + ": "` — the tag itself
is compared verbatim, not lowercased — and return the original line's
suffix after that prefix, in server order. -/
def decodeList (tag : String) (lines : List String) : List String :=
  let pre := tag ++ ": "
  lines.filterMap (fun line =>
    if goStartsWith (goToLower line) pre
    then some (String.mk (line.toList.drop pre.toList.length))
    else none)

/-- Modelled from the spec's words for comparison with `decodeList` (the
refinement stated by C6): filter the lines whose prefix matches
`tag ++ ": "` with the TAG compared case-insensitively and return the
original suffix values. -/
def decodeListSpecCI (tag : String) (lines : List String) : List String :=
  lines.filterMap (fun line =>
    if goStartsWith (goToLower line) (goToLower tag ++ ": ")
    then some (String.mk (line.toList.drop (tag.toList.length + 2)))
    else none)

/-- The `Status` method (part_000 lines 151-222) as a function of the two
replies the environment provides: the result of the `status` command and
the result of the `currentsong` command (consulted only when issued).
The second component records whether the `currentsong` command was issued
(line 208's `s.State == "play" || s.State == "pause"` test); its failure
is only logged (lines 210-212) and the decoded status is returned
unchanged, while on its success the three metadata fields are filled from
the currentsong record, a missing key giving Go's zero value `""`
(lines 214-217). -/
def statusMethod (statusRes csRes : Except MPDError (List String)) :
    Except MPDError Status × Bool :=
  match statusRes with
  | .error e => (.error e, false)
  | .ok lines =>
    let s := decodeStatus (parseKVP lines)
    if s.State = "play" ∨ s.State = "pause" then
      match csRes with
      | .error _ => (.ok s, true)
      | .ok csLines =>
        let kv := parseKVP csLines
        let s' : Status :=
          { s with
            Artist := (kv "Artist").getD ""
            Album := (kv "Album").getD ""
            Title := (kv "Title").getD "" }
        (.ok s', true)
    else (.ok s, false)

/-- Where control sits in `WatchStatus` (part_000 lines 304-335):
`connecting` is the top of the outer `for` loop, about to call
`NewClient` (line 306); `polling` is inside the ticker loop
(lines 316-328). -/
inductive WMode
  | connecting
  | polling
deriving Repr, DecidableEq

/-- The state of the watcher: its control position and the Shared Status
Slot (the package-level `CurrentStatus` pointer, line 20; `none` is the
initial nil pointer). -/
structure WState where
  mode : WMode
  slot : Option Status
deriving DecidableEq

/-- One outcome the environment hands the watcher: `NewClient` succeeded
or failed, or one `client.Status()` poll succeeded (with the decoded
status) or failed. -/
inductive WEvent
  | connectOk
  | connectFail
  | pollOk (st : Status)
  | pollFail
deriving DecidableEq

/-- The observable actions of one watcher step, in program order:
`connectAttempt` = the `NewClient` call (line 306), `sleepDelay` = the
`time.Sleep(interval)` retry delay (line 309), `tickWait` = blocking on
the ticker for one interval (line 316), `pollAttempt` = the
`client.Status()` call (line 317), `publish` = the locked write to
`CurrentStatus` (lines 325-327), `closeConn` = `client.Close()`
(line 320). -/
inductive WAct
  | connectAttempt
  | sleepDelay
  | tickWait
  | pollAttempt
  | publish
  | closeConn
deriving Repr, DecidableEq

/-- One step of `WatchStatus` (part_000 lines 304-335) driven by one
environment outcome, returning the next state and the actions performed,
in order.  A failed connect logs, sleeps and retries (lines 307-311); a
successful connect enters the ticker loop (line 315); a successful poll
publishes into the slot (lines 325-327); a failed poll closes the client,
stops the ticker and breaks back to the outer loop (lines 318-323) —
with no sleep before the next connect attempt (the comment at lines
330-333 documents that the retry delay is paid only after a FAILED
connect attempt).  An event that cannot occur in the current mode leaves
the state unchanged with no actions. -/
def step : WState → WEvent → WState × List WAct
  | ⟨.connecting, sl⟩, .connectOk => (⟨.polling, sl⟩, [.connectAttempt])
  | ⟨.connecting, sl⟩, .connectFail => (⟨.connecting, sl⟩, [.connectAttempt, .sleepDelay])
  | ⟨.connecting, sl⟩, .pollOk _ => (⟨.connecting, sl⟩, [])
  | ⟨.connecting, sl⟩, .pollFail => (⟨.connecting, sl⟩, [])
  | ⟨.polling, sl⟩, .connectOk => (⟨.polling, sl⟩, [])
  | ⟨.polling, sl⟩, .connectFail => (⟨.polling, sl⟩, [])
  | ⟨.polling, _⟩, .pollOk st => (⟨.polling, some st⟩, [.tickWait, .pollAttempt, .publish])
  | ⟨.polling, sl⟩, .pollFail => (⟨.connecting, sl⟩, [.tickWait, .pollAttempt, .closeConn])

/-- Running the watcher over a list of environment outcomes: final state
and the concatenated action trace. -/
def runW : WState → List WEvent → WState × List WAct
  | s, [] => (s, [])
  | s, e :: es =>
    let p := step s e
    let q := runW p.1 es
    (q.1, p.2 ++ q.2)

/-- The watcher's starting state: about to make its very first connection
attempt, with the Shared Status Slot empty. -/
def initW : WState := ⟨.connecting, none⟩

/-- A concrete decoded status, for witnesses. -/
def sampleStatus : Status := decodeStatus (fun _ => none)

/-- A second, distinct concrete status. -/
def sampleStatus2 : Status := decodeStatus (fun k => if k = "state" then some "play" else none)

theorem kvFold_eq (k : String) (lines : List String) :
    ∀ m, lines.foldl kvInsert m k = ((valuesFor lines k).getLast?).elim (m k) some := by
  induction lines using List.reverseRecOn with
  | nil => intro m; simp [valuesFor]
  | append_singleton l x ih =>
    intro m
    rw [List.foldl_append, List.foldl_cons, List.foldl_nil]
    unfold valuesFor
    rw [List.filterMap_append]
    cases hx : splitKV x with
    | none =>
      simp only [kvInsert, hx, List.filterMap_cons, List.filterMap_nil]
      simpa [valuesFor] using ih m
    | some kv =>
      by_cases hk : k = kv.1
      · simp [kvInsert, hx, hk, List.filter_append, List.getLast?_concat]
      · simp only [kvInsert, hx]
        rw [if_neg hk]
        simp only [List.filterMap_cons, hx, List.filterMap_nil, List.filter_append]
        have : [kv].filter (fun p => p.1 = k) = [] := by
          simp [List.filter_cons, decide_eq_false (fun h : kv.1 = k => hk h.symm)]
        rw [this, List.append_nil]
        simpa [valuesFor] using ih m

theorem parseKVP_eq (lines : List String) (k : String) :
    parseKVP lines k = (valuesFor lines k).getLast? := by
  rw [parseKVP, kvFold_eq]
  cases (valuesFor lines k).getLast? <;> rfl

theorem splitSep_append_sep :
    ∀ (cs vs : List Char), splitSep cs = none →
      splitSep (cs ++ ':' :: ' ' :: vs) = some (cs, vs) := by
  intro cs
  induction cs with
  | nil => intro vs _; simp [splitSep]
  | cons c rest ih =>
    intro vs h
    rw [splitSep] at h
    split at h
    · exact absurd h (by simp)
    · have hrest : splitSep rest = none := by
        cases hr : splitSep rest with
        | none => rfl
        | some p => rw [hr] at h; simp at h
      rename_i hcond
      rw [List.cons_append, splitSep]
      by_cases hc : c = ':' ∧ ((rest ++ ':' :: ' ' :: vs).head? = some ' ')
      · exfalso
        cases rest with
        | nil => simp at hc
        | cons r t =>
          exact hcond ⟨hc.1, by simpa using hc.2⟩
      · rw [if_neg hc, ih vs hrest]
        rfl

/-- C5: `parseKVP` splits each line on the first occurrence of `": "`
(witnessed by: a separator-free key followed by `": "` and a value splits
back into exactly that key and value, and a separator-free line is
dropped), silently drops lines without the separator, and produces a
mapping with one entry per distinct key in which a duplicate key's later
occurrence overwrites the earlier one: the lookup of `k` is the LAST of
the values carried by separator-containing lines with key `k`. -/
theorem C5_parseKVP_splits_and_overwrites :
    (∀ lines k, parseKVP lines k = (valuesFor lines k).getLast?) ∧
    (∀ key v : String, splitSep key.toList = none →
      splitKV (key ++ ": " ++ v) = some (key, v)) ∧
    (∀ line, splitSep line.toList = none → splitKV line = none) := by
  refine ⟨parseKVP_eq, ?_, ?_⟩
  · intro key v h
    have : (key ++ ": " ++ v).toList = key.toList ++ ':' :: ' ' :: v.toList := by
      simp only [String.toList, String.data_append]
      simp
    rw [splitKV, this, splitSep_append_sep key.toList v.toList h]
    simp
  · intro line h
    rw [splitKV, h]
    rfl

/-- Witness for C5 at concrete inputs: a duplicate key keeps the later
value, and `"genre" ++ ": " ++ "Rock"` splits back into key and value. -/
theorem C5_witness :
    parseKVP ["a: 1", "nosep", "a: 2"] "a" = (valuesFor ["a: 1", "nosep", "a: 2"] "a").getLast? ∧
    splitKV ("genre" ++ ": " ++ "Rock") = some ("genre", "Rock") ∧
    parseKVP ["a: 1", "nosep", "a: 2"] "a" = some "2" :=
  ⟨C5_parseKVP_splits_and_overwrites.1 ["a: 1", "nosep", "a: 2"] "a",
   C5_parseKVP_splits_and_overwrites.2.1 "genre" "Rock" (by decide),
   by decide⟩

theorem goParseFloat_fail (s : String) (h : (goParseFloat s).2 = false) :
    (goParseFloat s).1 = 0 := by
  unfold goParseFloat at h ⊢
  cases hq : goParseFloatQ s <;> simp [hq] at h ⊢

/-- C4: `decodeStatus` is total (it returns a `Status` for every key-value
record, never an error), and a record lacking a given key leaves that
field at its documented default: state empty, volume -1, the four mode
flags false, playlist length 0, current and next queue position 0, their
ids -1, duration 0, elapsed 0, bitrate 0, error string empty. -/
theorem C4_decodeStatus_missing_key_defaults (kv : String → Option String) :
    (kv "state" = none → (decodeStatus kv).State = "") ∧
    (kv "volume" = none → (decodeStatus kv).Volume = -1) ∧
    (kv "repeat" = none → (decodeStatus kv).Repeat = false) ∧
    (kv "random" = none → (decodeStatus kv).Random = false) ∧
    (kv "single" = none → (decodeStatus kv).Single = false) ∧
    (kv "consume" = none → (decodeStatus kv).Consume = false) ∧
    (kv "playlistlength" = none → (decodeStatus kv).PlaylistLength = 0) ∧
    (kv "song" = none → (decodeStatus kv).Song = 0) ∧
    (kv "nextsong" = none → (decodeStatus kv).NextSong = 0) ∧
    (kv "songid" = none → (decodeStatus kv).SongID = -1) ∧
    (kv "nextsongid" = none → (decodeStatus kv).NextSongID = -1) ∧
    (kv "duration" = none → (decodeStatus kv).Duration = 0) ∧
    (kv "elapsed" = none → (decodeStatus kv).Elapsed = 0) ∧
    (kv "bitrate" = none → (decodeStatus kv).Bitrate = 0) ∧
    (kv "error" = none → (decodeStatus kv).Error = "") := by
  refine ⟨?_, ?_, ?_, ?_, ?_, ?_, ?_, ?_, ?_, ?_, ?_, ?_, ?_, ?_, ?_⟩ <;>
    (intro h; simp [decodeStatus, h])

/-- Witness for C4: the empty record decodes to all defaults. -/
theorem C4_witness :
    (decodeStatus (fun _ => none)).State = "" ∧
    (decodeStatus (fun _ => none)).Volume = -1 ∧
    (decodeStatus (fun _ => none)).Repeat = false ∧
    (decodeStatus (fun _ => none)).Random = false ∧
    (decodeStatus (fun _ => none)).Single = false ∧
    (decodeStatus (fun _ => none)).Consume = false ∧
    (decodeStatus (fun _ => none)).PlaylistLength = 0 ∧
    (decodeStatus (fun _ => none)).Song = 0 ∧
    (decodeStatus (fun _ => none)).NextSong = 0 ∧
    (decodeStatus (fun _ => none)).SongID = -1 ∧
    (decodeStatus (fun _ => none)).NextSongID = -1 ∧
    (decodeStatus (fun _ => none)).Duration = 0 ∧
    (decodeStatus (fun _ => none)).Elapsed = 0 ∧
    (decodeStatus (fun _ => none)).Bitrate = 0 ∧
    (decodeStatus (fun _ => none)).Error = "" := by
  have H := C4_decodeStatus_missing_key_defaults (fun _ => none)
  exact ⟨H.1 rfl, H.2.1 rfl, H.2.2.1 rfl, H.2.2.2.1 rfl, H.2.2.2.2.1 rfl,
    H.2.2.2.2.2.1 rfl, H.2.2.2.2.2.2.1 rfl, H.2.2.2.2.2.2.2.1 rfl,
    H.2.2.2.2.2.2.2.2.1 rfl, H.2.2.2.2.2.2.2.2.2.1 rfl,
    H.2.2.2.2.2.2.2.2.2.2.1 rfl, H.2.2.2.2.2.2.2.2.2.2.2.1 rfl,
    H.2.2.2.2.2.2.2.2.2.2.2.2.1 rfl, H.2.2.2.2.2.2.2.2.2.2.2.2.2.1 rfl,
    H.2.2.2.2.2.2.2.2.2.2.2.2.2.2 rfl⟩

/-- C1 (counterexample): the claim says an unparsable numeric field is
left at its documented default, so an unparsable `volume` should stay at
-1; on the record whose only entry is `volume ↦ "abc"` the code instead
stores `strconv.Atoi`'s error-case return value 0 (the parse error is
discarded with `_` at part_000 line 164). -/
theorem C1_counterexample :
    kvVolumeBad "volume" = some "abc" ∧ (goAtoi "abc").2 = false ∧
    (decodeStatus kvVolumeBad).Volume = 0 ∧
    ¬((decodeStatus kvVolumeBad).Volume = -1) := by decide

/-- C1 (amended): when a numeric field's value is present but unparsable,
`decodeStatus` stores the value component that the Go parser returns
alongside its error — 0 for malformed text (the clamped 64-bit bound for
an out-of-range numeral) — rather than the documented default, so the
fields whose default is 0 (playlist length, positions, duration, elapsed,
bitrate) do keep their default on malformed text, while volume, song id
and next song id become 0, not -1; in all cases every other field of the
resulting `Status` is decoded exactly as if the unparsable key were
absent. -/
theorem C1_decodeStatus_parse_failure :
    (∀ kv v, kv "volume" = some v → (goAtoi v).2 = false →
      decodeStatus kv = { decodeStatus (eraseKey kv "volume") with Volume := (goAtoi v).1 }) ∧
    (∀ kv v, kv "playlistlength" = some v → (goAtoi v).2 = false →
      decodeStatus kv = { decodeStatus (eraseKey kv "playlistlength") with PlaylistLength := (goAtoi v).1 }) ∧
    (∀ kv v, kv "song" = some v → (goAtoi v).2 = false →
      decodeStatus kv = { decodeStatus (eraseKey kv "song") with Song := (goAtoi v).1 }) ∧
    (∀ kv v, kv "songid" = some v → (goAtoi v).2 = false →
      decodeStatus kv = { decodeStatus (eraseKey kv "songid") with SongID := (goAtoi v).1 }) ∧
    (∀ kv v, kv "nextsong" = some v → (goAtoi v).2 = false →
      decodeStatus kv = { decodeStatus (eraseKey kv "nextsong") with NextSong := (goAtoi v).1 }) ∧
    (∀ kv v, kv "nextsongid" = some v → (goAtoi v).2 = false →
      decodeStatus kv = { decodeStatus (eraseKey kv "nextsongid") with NextSongID := (goAtoi v).1 }) ∧
    (∀ kv v, kv "bitrate" = some v → (goAtoi v).2 = false →
      decodeStatus kv = { decodeStatus (eraseKey kv "bitrate") with Bitrate := (goAtoi v).1 }) ∧
    (∀ kv v, kv "duration" = some v → (goParseFloat v).2 = false →
      decodeStatus kv = { decodeStatus (eraseKey kv "duration") with Duration := 0 }) ∧
    (∀ kv v, kv "elapsed" = some v → (goParseFloat v).2 = false →
      decodeStatus kv = { decodeStatus (eraseKey kv "elapsed") with Elapsed := 0 }) := by
  refine ⟨?_, ?_, ?_, ?_, ?_, ?_, ?_, ?_, ?_⟩
  · intro kv v h _hf; ext <;> simp [decodeStatus, eraseKey, h]
  · intro kv v h _hf; ext <;> simp [decodeStatus, eraseKey, h]
  · intro kv v h _hf; ext <;> simp [decodeStatus, eraseKey, h]
  · intro kv v h _hf; ext <;> simp [decodeStatus, eraseKey, h]
  · intro kv v h _hf; ext <;> simp [decodeStatus, eraseKey, h]
  · intro kv v h _hf; ext <;> simp [decodeStatus, eraseKey, h]
  · intro kv v h _hf; ext <;> simp [decodeStatus, eraseKey, h]
  · intro kv v h hf
    ext <;> simp [decodeStatus, eraseKey, h, goParseFloat_fail v hf, goIntOfFloat]
  · intro kv v h hf
    ext <;> simp [decodeStatus, eraseKey, h, goParseFloat_fail v hf]

/-- Witness for C1 at the concrete record `volume ↦ "abc"`. -/
theorem C1_witness :
    kvVolumeBad "volume" = some "abc" ∧ (goAtoi "abc").2 = false ∧
    decodeStatus kvVolumeBad =
      { decodeStatus (eraseKey kvVolumeBad "volume") with Volume := (goAtoi "abc").1 } :=
  ⟨by decide, by decide,
   C1_decodeStatus_parse_failure.1 kvVolumeBad "abc" (by decide) (by decide)⟩

theorem readReply_ack (command : String) (l : String) (post : List String)
    (hl : goStartsWith (goTrimSpace l) "ACK" = true) :
    ∀ (pre : List String) (acc : List String),
      (∀ p ∈ pre, goTrimSpace p ≠ "OK" ∧ goStartsWith (goTrimSpace p) "ACK" = false) →
      readReply command (pre ++ l :: post) acc =
        .error (.commandFailed command (goTrimSpace l)) := by
  intro pre
  induction pre with
  | nil =>
    intro acc _
    have hok : goTrimSpace l ≠ "OK" := by
      intro h
      rw [h] at hl
      exact absurd hl (by decide)
    rw [List.nil_append, readReply]
    simp only [if_neg hok, if_pos hl]
  | cons p pre' ih =>
    intro acc hpre
    have hp := hpre p (by simp)
    rw [List.cons_append, readReply]
    rw [if_neg hp.1, if_neg (by simp [hp.2])]
    exact ih _ (fun q hq => hpre q (by simp [hq]))

/-- C2 (counterexample): the claim says the error's detail is the text
after `"ACK "`; on the single reply line
`ACK [5@0] {play} malformed argument` the code's error instead carries
the whole line — `fmt.Errorf("mpd command '%s' failed: %s", command,
line)` at part_000 line 103 interpolates `line` itself — and the whole
line differs from the text after `"ACK "`. -/
theorem C2_counterexample :
    sendCommand true "play" ["ACK [5@0] {play} malformed argument"] =
      .error (.commandFailed "play" "ACK [5@0] {play} malformed argument") ∧
    "ACK [5@0] {play} malformed argument" ≠ "[5@0] {play} malformed argument" :=
  ⟨rfl, by decide⟩

/-- C2 (amended): for every reply in which some line begins (after
trimming) with the error-marker prefix `"ACK"` before any success token,
`sendCommand` fails with an error whose detail equals that WHOLE trimmed
line (including the `ACK` marker), and returns zero response lines (the
error carries no lines). -/
theorem C2_sendCommand_ack (command : String) (pre : List String) (l : String)
    (post : List String)
    (hpre : ∀ p ∈ pre, goTrimSpace p ≠ "OK" ∧ goStartsWith (goTrimSpace p) "ACK" = false)
    (hl : goStartsWith (goTrimSpace l) "ACK" = true) :
    sendCommand true command (pre ++ l :: post) =
      .error (.commandFailed command (goTrimSpace l)) := by
  have hw : sendCommand true command (pre ++ l :: post) =
      readReply command (pre ++ l :: post) [] := rfl
  rw [hw]
  exact readReply_ack command l post hl pre [] hpre

/-- Witness for C2 on the spec's example reply, preceded by an ordinary
data line and followed by a success token that is never reached. -/
theorem C2_witness :
    (∀ p ∈ ["artist: X"], goTrimSpace p ≠ "OK" ∧ goStartsWith (goTrimSpace p) "ACK" = false) ∧
    goStartsWith (goTrimSpace "ACK [5@0] {play} malformed argument") "ACK" = true ∧
    sendCommand true "play" (["artist: X"] ++ "ACK [5@0] {play} malformed argument" :: ["OK"]) =
      .error (.commandFailed "play" "ACK [5@0] {play} malformed argument") := by
  refine ⟨by decide, by decide, ?_⟩
  have h := C2_sendCommand_ack "play" ["artist: X"]
    "ACK [5@0] {play} malformed argument" ["OK"] (by decide) (by decide)
  rw [show goTrimSpace "ACK [5@0] {play} malformed argument" =
    "ACK [5@0] {play} malformed argument" from by decide] at h
  exact h

/-- C7: `NewClient` returns a client only if the greeting line starts
with the exact sentinel `"OK MPD"`; a sentinel mismatch or an I/O failure
during the greeting read closes the opened stream and fails with the
corresponding `ConnectError`; a dial failure fails with no stream to
close. -/
theorem C7_NewClient_greeting :
    (∀ o, (∃ c, (NewClient o).1 = .ok c) ↔
      ∃ line, o = .greeting line ∧ goStartsWith line "OK MPD" = true) ∧
    (∀ line, goStartsWith line "OK MPD" = false →
      NewClient (.greeting line) = (.error (.badGreeting line), true)) ∧
    NewClient .readFail = (.error .greetingReadFailed, true) ∧
    NewClient .dialFail = (.error .dialFailed, false) := by
  refine ⟨?_, ?_, rfl, rfl⟩
  · intro o
    cases o with
    | dialFail => simp [NewClient]
    | readFail => simp [NewClient]
    | greeting line =>
      by_cases h : goStartsWith line "OK MPD" = true
      · simp [NewClient, h]
      · simp only [Bool.not_eq_true] at h
        simp [NewClient, h]
  · intro line h
    simp [NewClient, h]

/-- Witness for C7: the sentinel is case-sensitive — a lowercase greeting
is rejected with the stream closed, while `"OK MPD 0.23"` is accepted. -/
theorem C7_witness :
    goStartsWith "ok mpd 0.23" "OK MPD" = false ∧
    NewClient (.greeting "ok mpd 0.23") = (.error (.badGreeting "ok mpd 0.23"), true) ∧
    (∃ c, (NewClient (.greeting "OK MPD 0.23")).1 = .ok c) :=
  ⟨by decide, C7_NewClient_greeting.2.1 "ok mpd 0.23" (by decide),
   (C7_NewClient_greeting.1 _).2 ⟨"OK MPD 0.23", rfl, by decide⟩⟩

/-- C10: building the `list` command reads `args[i+1]` for every even
`i < len(args)`, so it goes out of bounds (modelled as `none`, where Go
panics) exactly when the number of variadic filter arguments is odd, and
no out-of-bounds access occurs for even-length argument lists. -/
theorem C10_List_args_parity (tag : String) (args : List String) :
    buildListCmd tag args = none ↔ args.length % 2 = 1 := by
  have main : ∀ n (i : Nat) (cmd : String), args.length - i = n →
      (listCmdLoop args i cmd = none ↔ (args.length - i) % 2 = 1) := by
    intro n
    induction n using Nat.strong_induction_on with
    | _ n ih =>
      intro i cmd hn
      rw [listCmdLoop]
      by_cases hi : i < args.length
      · rw [dif_pos hi]
        by_cases hj : i + 1 < args.length
        · rw [List.getElem?_eq_getElem hj]
          exact ((ih (args.length - (i + 2)) (by omega) (i + 2) _ rfl).trans
            (by constructor <;> intro h <;> omega))
        · rw [List.getElem?_eq_none (by omega)]
          have h1 : (args.length - i) % 2 = 1 := by omega
          simp [h1]
      · rw [dif_neg hi]
        have h0 : (args.length - i) % 2 = 0 := by omega
        simp [h0]
  have := main (args.length - 0) 0 ("list " ++ tag) rfl
  simpa [buildListCmd] using this

/-- C6 (counterexample): the claim says the tag is compared
case-insensitively, so `decodeList "Genre"` should extract the value of
the line `"Genre: Rock"`; the code lowercases the LINE but compares the
tag verbatim (part_000 lines 141-143), so the uppercase tag matches
nothing, while the spec-worded case-insensitive filter extracts
`"Rock"`. -/
theorem C6_counterexample :
    decodeList "Genre" ["Genre: Rock"] = [] ∧
    decodeListSpecCI "Genre" ["Genre: Rock"] = ["Rock"] := by decide

/-- C6 (amended): `decodeList` lowercases each line and compares its
prefix against `tag ++ ": "` with the tag taken verbatim, so for a
LOWERCASE tag it returns exactly the suffix values (original case, server
order, stray lines ignored) of the lines whose prefix matches the tag
case-insensitively; a tag containing an uppercase letter matches no line
at all. -/
theorem C6_decodeList_lowercase_tag (tag : String) (lines : List String)
    (h : goToLower tag = tag) :
    decodeList tag lines = decodeListSpecCI tag lines := by
  unfold decodeList decodeListSpecCI
  have hlen : (tag ++ ": ").toList.length = tag.toList.length + 2 := by
    simp [String.toList, String.data_append]
  simp only [h, hlen]

/-- Witness for C6 on the spec's example: `list "genre"` against a reply
with two genre lines and a stray line returns `["Rock", "Jazz"]`. -/
theorem C6_witness :
    goToLower "genre" = "genre" ∧
    decodeList "genre" ["genre: Rock", "stray line", "genre: Jazz"] =
      decodeListSpecCI "genre" ["genre: Rock", "stray line", "genre: Jazz"] ∧
    decodeList "genre" ["genre: Rock", "stray line", "genre: Jazz"] = ["Rock", "Jazz"] :=
  ⟨by decide, C6_decodeList_lowercase_tag "genre" _ (by decide), by decide⟩

/-- C8: the `currentsong` query is issued if and only if the decoded
state is `"play"` or `"pause"`; in any other state the status-query
decode is returned as is, whose metadata fields are always empty; and if
the `currentsong` query fails, the decoded `Status` is still returned
with its metadata fields left at their empty defaults. -/
theorem C8_currentsong_conditional :
    (∀ lines cs, (statusMethod (.ok lines) cs).2 = true ↔
      ((decodeStatus (parseKVP lines)).State = "play" ∨
       (decodeStatus (parseKVP lines)).State = "pause")) ∧
    (∀ lines cs,
      ¬((decodeStatus (parseKVP lines)).State = "play" ∨
        (decodeStatus (parseKVP lines)).State = "pause") →
      statusMethod (.ok lines) cs = (.ok (decodeStatus (parseKVP lines)), false)) ∧
    (∀ lines e,
      ((decodeStatus (parseKVP lines)).State = "play" ∨
       (decodeStatus (parseKVP lines)).State = "pause") →
      statusMethod (.ok lines) (.error e) = (.ok (decodeStatus (parseKVP lines)), true)) ∧
    (∀ kv, (decodeStatus kv).Artist = "" ∧ (decodeStatus kv).Album = "" ∧
      (decodeStatus kv).Title = "") := by
  refine ⟨?_, ?_, ?_, fun kv => ⟨rfl, rfl, rfl⟩⟩
  · intro lines cs
    by_cases h : ((decodeStatus (parseKVP lines)).State = "play" ∨
       (decodeStatus (parseKVP lines)).State = "pause")
    · cases cs <;> simp [statusMethod, h]
    · simp [statusMethod, h]
  · intro lines cs h
    simp [statusMethod, h]
  · intro lines e h
    simp [statusMethod, h]

/-- Witness for C8: a `state: stop` reply never issues `currentsong` and
keeps the metadata empty even though a currentsong reply is available,
while a `state: play` reply with a failing `currentsong` still returns
the decoded status. -/
theorem C8_witness :
    ¬((decodeStatus (parseKVP ["state: stop"])).State = "play" ∨
      (decodeStatus (parseKVP ["state: stop"])).State = "pause") ∧
    statusMethod (.ok ["state: stop"]) (.ok ["Artist: X"]) =
      (.ok (decodeStatus (parseKVP ["state: stop"])), false) ∧
    ((decodeStatus (parseKVP ["state: play"])).State = "play" ∨
      (decodeStatus (parseKVP ["state: play"])).State = "pause") ∧
    statusMethod (.ok ["state: play"]) (.error (.readFailed "currentsong")) =
      (.ok (decodeStatus (parseKVP ["state: play"])), true) :=
  ⟨by decide, C8_currentsong_conditional.2.1 ["state: stop"] (.ok ["Artist: X"]) (by decide),
   by decide,
   C8_currentsong_conditional.2.2.1 ["state: play"] (.readFailed "currentsong") (by decide)⟩

/-- C3: a poll failure closes the connection and moves back to
`connecting` with the slot untouched; no step ever empties the slot
(once it holds a `Status` it holds one forever, along any run); and the
slot's value only ever changes to the status of a successful poll. -/
theorem C3_slot_never_cleared :
    (∀ sl, step ⟨.polling, sl⟩ .pollFail =
      (⟨.connecting, sl⟩, [.tickWait, .pollAttempt, .closeConn])) ∧
    (∀ s e, ((step s e).1.slot = s.slot) ∨
      ∃ st, e = .pollOk st ∧ (step s e).1.slot = some st) ∧
    (∀ s e, s.slot.isSome = true → ((step s e).1.slot).isSome = true) ∧
    (∀ s es, s.slot.isSome = true → ((runW s es).1.slot).isSome = true) := by
  have h2 : ∀ s e, ((step s e).1.slot = s.slot) ∨
      ∃ st, e = .pollOk st ∧ (step s e).1.slot = some st := by
    intro s e
    obtain ⟨m, sl⟩ := s
    cases m <;> cases e <;> simp [step]
  refine ⟨fun sl => rfl, h2, ?_, ?_⟩
  · intro s e hs
    rcases h2 s e with h | ⟨st, _, h⟩ <;> rw [h] <;> simp_all
  · intro s es
    induction es generalizing s with
    | nil => intro hs; simpa [runW] using hs
    | cons e es ih =>
      intro hs
      rw [runW]
      apply ih
      rcases h2 s e with h | ⟨st, _, h⟩ <;> rw [h] <;> simp_all

/-- Witness for C3, including the spec's scenario: connect, two
successful polls, then a failing third poll — the slot still holds the
second poll's status while the watcher is back in `connecting`. -/
theorem C3_witness :
    ((⟨WMode.polling, some sampleStatus⟩ : WState).slot).isSome = true ∧
    ((runW ⟨WMode.polling, some sampleStatus⟩ [.pollFail, .connectOk]).1.slot).isSome = true ∧
    (runW initW [.connectOk, .pollOk sampleStatus, .pollOk sampleStatus2, .pollFail]).1 =
      ⟨WMode.connecting, some sampleStatus2⟩ :=
  ⟨rfl, C3_slot_never_cleared.2.2.2 ⟨WMode.polling, some sampleStatus⟩ [.pollFail, .connectOk] rfl,
   rfl⟩

/-- C9 (counterexample): the claim says the retry delay is paid before
EVERY reconnection attempt that follows a failure; in the run connect,
poll failure, reconnect, the action trace contains a reconnection attempt
after the poll failure but no sleep at all — the code reconnects
immediately after a failed poll cycle (part_000 lines 318-323, and the
comment at lines 330-333 states the sleep happens only after a failed
connect attempt). -/
theorem C9_counterexample :
    (runW initW [.connectOk, .pollFail, .connectOk]).2 =
      [.connectAttempt, .tickWait, .pollAttempt, .closeConn, .connectAttempt] ∧
    WAct.sleepDelay ∉ (runW initW [.connectOk, .pollFail, .connectOk]).2 := by
  constructor
  · rfl
  · decide

/-- C9 (amended): the retry delay is paid exactly after a FAILED connect
attempt, before the next one (`time.Sleep` at part_000 line 309); a
failed poll cycle closes the connection and moves straight back to
`connecting` with no delay paid; and no delay is paid before the very
first connection attempt — every action trace from a `connecting` state
(in particular from the initial state, and from the state reached right
after a poll failure) begins with the connect attempt itself, never with
a sleep. -/
theorem C9_delay_only_after_failed_connect :
    (∀ sl, step ⟨WMode.connecting, sl⟩ .connectFail =
      (⟨WMode.connecting, sl⟩, [.connectAttempt, .sleepDelay])) ∧
    (∀ sl, step ⟨WMode.polling, sl⟩ .pollFail =
      (⟨WMode.connecting, sl⟩, [.tickWait, .pollAttempt, .closeConn])) ∧
    (∀ s es, s.mode = .connecting →
      ((runW s es).2 = [] ∨ ∃ rest, (runW s es).2 = WAct.connectAttempt :: rest)) := by
  refine ⟨fun sl => rfl, fun sl => rfl, ?_⟩
  intro s es
  induction es generalizing s with
  | nil => intro _; left; rfl
  | cons e es ih =>
    intro hs
    obtain ⟨m, sl⟩ := s
    cases m with
    | connecting =>
      cases e with
      | connectOk => right; exact ⟨_, rfl⟩
      | connectFail => right; exact ⟨_, rfl⟩
      | pollOk st =>
        rw [runW]
        simpa [step, runW] using ih ⟨WMode.connecting, sl⟩ rfl
      | pollFail =>
        rw [runW]
        simpa [step, runW] using ih ⟨WMode.connecting, sl⟩ rfl
    | polling => exact absurd hs (by simp)

/-- Witness for C9 from the initial state: the first action of a run is
the connect attempt, not a sleep. -/
theorem C9_witness :
    initW.mode = WMode.connecting ∧
    ((runW initW [.connectFail, .connectOk]).2 = [] ∨
      ∃ rest, (runW initW [.connectFail, .connectOk]).2 = WAct.connectAttempt :: rest) :=
  ⟨rfl, C9_delay_only_after_failed_connect.2.2 initW [.connectFail, .connectOk] rfl⟩

end MPDSpec
